import Mathlib

/-!
Shallow embedding of the muralis-gui sources (processrunner.h,
processrunner.cpp, main.cpp).

The repository code is Qt glue: `ProcessRunner::run` launches an external
"muralis" process through `QProcess` and relays its captured standard
output and exit code through a `finished` signal; `main` reads a session
JSON file to pick a Material theme and loads a QML UI.

Qt library facilities used by the code (`QProcess`, `QString::fromUtf8`,
`QJsonDocument` and friends) are modelled at their documented interface
behaviour; the control flow and data flow of the repository's own
functions are translated line by line from the source.
-/

namespace Muralis

/-! ## Model of QString::fromUtf8 (Qt library)

`QString::fromUtf8` decodes a byte array as UTF-8 text; invalid byte
sequences are replaced with the Unicode replacement character U+FFFD.
Bytes are modelled as natural numbers. -/

/-- The Unicode replacement character U+FFFD, produced for invalid UTF-8. -/
def replacementChar : Char := Char.ofNat 0xFFFD

/-- Whether a byte is a UTF-8 continuation byte (10xxxxxx). -/
def isCont (b : Nat) : Bool := 0x80 ≤ b && b < 0xC0

/-- Fuel-indexed UTF-8 decoding loop. The fuel is an upper bound on the
number of bytes still to be consumed; each step consumes at least one
byte and one unit of fuel, so starting with `fuel = length` decodes the
whole input. Invalid sequences yield U+FFFD for the offending byte. -/
def utf8DecodeAux : Nat → List Nat → List Char
  | 0, _ => []
  | _ + 1, [] => []
  | fuel + 1, b :: bs =>
    if b < 0x80 then
      Char.ofNat b :: utf8DecodeAux fuel bs
    else if 0xC2 ≤ b && b ≤ 0xDF then
      match bs with
      | b2 :: bs2 =>
        if isCont b2 then
          Char.ofNat (((b - 0xC0) <<< 6) + (b2 - 0x80)) :: utf8DecodeAux fuel bs2
        else replacementChar :: utf8DecodeAux fuel bs
      | [] => [replacementChar]
    else if 0xE0 ≤ b && b ≤ 0xEF then
      match bs with
      | b2 :: b3 :: bs3 =>
        if isCont b2 && isCont b3
            && (b ≠ 0xE0 || 0xA0 ≤ b2)      -- reject overlong encodings
            && (b ≠ 0xED || b2 < 0xA0) then -- reject UTF-16 surrogates
          Char.ofNat (((b - 0xE0) <<< 12) + ((b2 - 0x80) <<< 6) + (b3 - 0x80))
            :: utf8DecodeAux fuel bs3
        else replacementChar :: utf8DecodeAux fuel bs
      | _ => [replacementChar]
    else if 0xF0 ≤ b && b ≤ 0xF4 then
      match bs with
      | b2 :: b3 :: b4 :: bs4 =>
        if isCont b2 && isCont b3 && isCont b4
            && (b ≠ 0xF0 || 0x90 ≤ b2)      -- reject overlong encodings
            && (b ≠ 0xF4 || b2 < 0x90) then -- reject values above U+10FFFF
          Char.ofNat (((b - 0xF0) <<< 18) + ((b2 - 0x80) <<< 12)
              + ((b3 - 0x80) <<< 6) + (b4 - 0x80))
            :: utf8DecodeAux fuel bs4
        else replacementChar :: utf8DecodeAux fuel bs
      | _ => [replacementChar]
    else
      replacementChar :: utf8DecodeAux fuel bs

/-- Model of `QString::fromUtf8`: decode a byte list as UTF-8 text. -/
def QStringFromUtf8 (bytes : List Nat) : String :=
  String.mk (utf8DecodeAux bytes.length bytes)

/-! ## Model of QProcess (Qt library)

The environment resolves each launched child process to an outcome:
either `QProcess::start` fails to start the program (Qt emits
`errorOccurred(FailedToStart)` and, per the Qt documentation, never
emits `finished` in that case), or the process runs and terminates, at
which point Qt emits `finished(exitCode, exitStatus)` exactly once and
the process's captured standard-output and standard-error bytes sit in
its separate channel buffers. -/

/-- `QProcess::ExitStatus`: how a terminated process ended. -/
inductive ExitStatus where
  | normalExit
  | crashExit
  deriving DecidableEq, Repr

/-- Environment-resolved fate of one launched `QProcess`. -/
inductive ProcOutcome where
  /-- The program could not be started; Qt reports `FailedToStart` via
  `errorOccurred` and emits no `finished` signal. -/
  | failedToStart
  /-- The process ran and terminated with the given buffered
  standard-output bytes, buffered standard-error bytes, exit code and
  exit status. -/
  | terminated (stdoutBytes stderrBytes : List Nat) (exitCode : Int)
      (status : ExitStatus)
  deriving DecidableEq, Repr

/-- The `finished(int, QProcess::ExitStatus)` events a `QProcess` with
the given outcome delivers: none when the program failed to start,
exactly one when the process terminated. -/
def QProcessFinishedEvents : ProcOutcome → List (Int × ExitStatus)
  | .failedToStart => []
  | .terminated _ _ code st => [(code, st)]

/-- Bytes returned by `proc->readAllStandardOutput()` once the process
has reached its outcome: the buffered standard-output channel. -/
def ProcOutcome.stdoutBuffer : ProcOutcome → List Nat
  | .failedToStart => []
  | .terminated out _ _ _ => out

/-! ## ProcessRunner (processrunner.h / processrunner.cpp) -/

/-- The argument triple of the signal declared in processrunner.h:
`void finished(const QString &requestId, const QString &stdoutData, int exitCode)`. -/
structure FinishedSignal where
  requestId : String
  stdoutData : String
  exitCode : Int
  deriving DecidableEq, Repr

/-- Observable actions a `ProcessRunner::run` call performs, in order. -/
inductive Action where
  /-- `proc->start(program, args)` (processrunner.cpp line 13). -/
  | startProcess (program : String) (args : List String)
  /-- `emit finished(requestId, output, exitCode)` (line 10). -/
  | emitFinished (sig : FinishedSignal)
  /-- `proc->deleteLater()` (line 11). -/
  | deleteLaterProcess
  deriving DecidableEq, Repr

/-- The signal an action emits, if any. -/
def Action.emittedSignal : Action → Option FinishedSignal
  | .emitFinished sig => some sig
  | _ => none

/-- The launch an action performs, if any. -/
def Action.startedLaunch : Action → Option (String × List String)
  | .startProcess prog args => some (prog, args)
  | _ => none

/-- The completion lambda connected in `ProcessRunner::run`
(processrunner.cpp lines 7-12). It captures `proc` and `requestId`;
when `QProcess::finished(exitCode, exitStatus)` fires it reads the
process's buffered standard output, decodes it as UTF-8, and emits
`finished(requestId, output, exitCode)`; the `exitStatus` parameter is
ignored. -/
def callbackSignal (requestId : String) (stdoutBytes : List Nat)
    (exitCode : Int) (_status : ExitStatus) : FinishedSignal :=
  { requestId := requestId
    stdoutData := QStringFromUtf8 stdoutBytes
    exitCode := exitCode }

/-- Actions the connected lambda performs for one `QProcess::finished`
event: emit the signal, then `proc->deleteLater()`. -/
def callbackActions (requestId : String) (stdoutBytes : List Nat)
    (exitCode : Int) (status : ExitStatus) : List Action :=
  [.emitFinished (callbackSignal requestId stdoutBytes exitCode status),
   .deleteLaterProcess]

/-- Actions `ProcessRunner::run` performs synchronously, before
returning to its caller: it allocates a fresh `QProcess`, connects the
completion lambda (neither is an observable action) and calls
`proc->start("muralis", args)`. It emits nothing itself and always
returns normally. -/
def runSyncActions (_requestId : String) (args : List String) : List Action :=
  [.startProcess "muralis" args]

/-- Full observable behaviour of one call `ProcessRunner::run(requestId,
args)` whose child process the environment resolves to `outcome`: the
synchronous actions of `run`, followed by the connected lambda's actions
for each `QProcess::finished` event delivered afterwards. -/
def ProcessRunner.run (requestId : String) (args : List String)
    (outcome : ProcOutcome) : List Action :=
  runSyncActions requestId args
    ++ (QProcessFinishedEvents outcome).flatMap
        (fun e => callbackActions requestId outcome.stdoutBuffer e.1 e.2)

/-- All `ProcessRunner::finished` signals emitted for one `run` call. -/
def ProcessRunner.emissions (requestId : String) (args : List String)
    (outcome : ProcOutcome) : List FinishedSignal :=
  (ProcessRunner.run requestId args outcome).filterMap Action.emittedSignal

/-- All launches performed by one `run` call. -/
def ProcessRunner.launches (requestId : String) (args : List String)
    (outcome : ProcOutcome) : List (String × List String) :=
  (ProcessRunner.run requestId args outcome).filterMap Action.startedLaunch

/-- Whether the child process actually started. -/
def ProcOutcome.launched : ProcOutcome → Bool
  | .failedToStart => false
  | .terminated .. => true

/-! ## Overlapping calls: signal dispatch machine

`ProcessRunner::run` may be invoked several times; each call allocates
its own `QProcess` object and connects its own lambda to that object's
`finished` signal. Process objects are identified by distinct ids
(Qt object identity); the machine records, per live process, the
`requestId` the connected lambda captured. Delivering a
`QProcess::finished` event for process `pid` invokes exactly the
lambdas connected to `pid`; the lambda then has the object removed
(`deleteLater`), so its connection is gone afterwards. -/

/-- Events of the interleaved execution: a call to
`ProcessRunner::run`, or delivery of a `QProcess::finished(exitCode,
status)` event for the process object `pid`, whose standard-output
buffer then holds `stdoutBytes`. -/
inductive SysEvent where
  | runCall (requestId : String) (args : List String)
  | procFinished (pid : Nat) (stdoutBytes : List Nat) (exitCode : Int)
      (status : ExitStatus)
  deriving DecidableEq, Repr

/-- State of the dispatcher: the next fresh process-object id and the
live connections, each pairing a process id with the `requestId`
captured by the lambda connected to it. -/
structure SysState where
  nextPid : Nat
  connections : List (Nat × String)
  deriving DecidableEq, Repr

/-- State transition. A `run` call allocates a fresh process object and
connects its lambda (processrunner.cpp lines 6-12); a delivered
`finished` event runs the connected lambdas, whose `deleteLater`
destroys the process object and with it the connection. -/
def stepState (s : SysState) : SysEvent → SysState
  | .runCall requestId _args =>
      { nextPid := s.nextPid + 1
        connections := s.connections ++ [(s.nextPid, requestId)] }
  | .procFinished pid _ _ _ =>
      { s with connections := s.connections.filter (fun c => c.1 ≠ pid) }

/-- Signals emitted while processing one event: a `run` call emits
nothing synchronously; a delivered `finished` event for `pid` fires
each lambda connected to `pid`, which emits
`finished(capturedRequestId, decoded stdout, exitCode)`. -/
def stepEmits (s : SysState) : SysEvent → List FinishedSignal
  | .runCall _ _ => []
  | .procFinished pid stdoutBytes exitCode status =>
      (s.connections.filter (fun c => c.1 = pid)).map
        (fun c => callbackSignal c.2 stdoutBytes exitCode status)

/-- Run the dispatcher over a sequence of events from state `s`. -/
def foldState (s : SysState) (es : List SysEvent) : SysState :=
  es.foldl stepState s

/-- Which `run` call got which process id: starting from fresh id `n`,
the `runCall` events of the sequence receive ids `n`, `n + 1`, ... in
order. -/
def allocMap (n : Nat) : List SysEvent → List (Nat × String)
  | [] => []
  | .runCall requestId _ :: es => (n, requestId) :: allocMap (n + 1) es
  | .procFinished .. :: es => allocMap n es

/-! ## main.cpp: session file, theme selection, exit status

`main` reads `<state>/DankMaterialShell/session.json` through
`readJsonFile`, computes `isDark`, exports the Material theme through
an environment variable, loads the QML UI and exits with `-1` when no
root object was created, otherwise with `app.exec()`'s result.
`QFile`, `QJsonDocument`, `QJsonObject` and `QJsonValue` are Qt
facilities, modelled at their documented interface behaviour. -/

/-- A JSON value as held by `QJsonValue`; `undefined` is the value
`QJsonObject::value` returns for a missing key. Numbers are modelled as
integers (no claim depends on floating-point contents). -/
inductive QJsonValue where
  | undefined
  | null
  | bool (b : Bool)
  | num (n : Int)
  | str (s : String)
  | arr (elems : List QJsonValue)
  | obj (fields : List (String × QJsonValue))

/-- A `QJsonObject`: finite key-value mapping, as an association list. -/
def QJsonObject := List (String × QJsonValue)

/-- Model of `QJsonObject::value(key)`: the value at `key`, or
`Undefined` when the key is absent. -/
def QJsonObject.value (o : QJsonObject) (key : String) : QJsonValue :=
  match o.find? (fun kv => kv.1 = key) with
  | some kv => kv.2
  | none => .undefined

/-- Model of `QJsonValue::toBool(defaultValue)`: the contained boolean
when the value is a boolean, the default otherwise (Qt performs no
conversion from other types). -/
def QJsonValue.toBool (v : QJsonValue) (defaultValue : Bool) : Bool :=
  match v with
  | .bool b => b
  | _ => defaultValue

/-- A parsed `QJsonDocument`: top-level array or object. -/
inductive QJsonDocument where
  | arrayDoc (elems : List QJsonValue)
  | objectDoc (o : QJsonObject)

/-- Model of `QJsonDocument::object()` applied to the result of
`QJsonDocument::fromJson`: `none` models the null document returned on
a parse error, for which `object()` gives an empty object; `object()`
of an array document is likewise empty. -/
def docObject : Option QJsonDocument → QJsonObject
  | none => []
  | some (.arrayDoc _) => []
  | some (.objectDoc o) => o

/-- Environment-resolved result of accessing the session JSON file:
either `QFile::open` fails, or it succeeds and
`QJsonDocument::fromJson` on the file's bytes yields `parsed`
(`none` on a parse error). -/
inductive SessionFileAccess where
  | openFailed
  | opened (parsed : Option QJsonDocument)

/-- Translation of `readJsonFile` (main.cpp lines 28-32): an empty
object when the file cannot be opened, otherwise
`QJsonDocument::fromJson(file.readAll()).object()`. -/
def readJsonFile : SessionFileAccess → QJsonObject
  | .openFailed => []
  | .opened parsed => docObject parsed

/-- Translation of main.cpp line 44:
`bool isDark = !session.value("isLightMode").toBool(false);`. -/
def isDark (f : SessionFileAccess) : Bool :=
  !((readJsonFile f).value "isLightMode").toBool false

/-- Translation of main.cpp line 47: the value written to the
`QT_QUICK_CONTROLS_MATERIAL_THEME` environment variable,
`isDark ? "Dark" : "Light"`. -/
def materialTheme (f : SessionFileAccess) : String :=
  if isDark f then "Dark" else "Light"

/-- Translation of main.cpp lines 71-80: `main`'s return value once the
QML engine has been loaded. `rootObjects` models
`engine.rootObjects()`; when it is empty `main` returns `-1` without
calling `app.exec()`, otherwise it returns `app.exec()`'s result,
modelled by `appExec`. -/
def mainReturn {α : Type} (rootObjects : List α) (appExec : Int) : Int :=
  if rootObjects.isEmpty then -1 else appExec

/-! ## Helper lemmas about the dispatch machine -/

/-- Every process id recorded by `allocMap n es` is at least `n`. -/
theorem allocMap_key_le {pid : Nat} {r : String} :
    ∀ {n : Nat} {es : List SysEvent}, (pid, r) ∈ allocMap n es → n ≤ pid := by
  intro n es
  induction es generalizing n with
  | nil => intro h; simp [allocMap] at h
  | cons e es ih =>
    cases e with
    | runCall rid args =>
      intro h
      simp only [allocMap, List.mem_cons] at h
      rcases h with h | h
      · injection h with h1 h2
        exact Nat.le_of_eq h1.symm
      · exact Nat.le_of_succ_le (ih h)
    | procFinished pid' b c st =>
      intro h
      exact ih h

/-- Process ids are allocated at most once: `allocMap` is functional. -/
theorem allocMap_functional {pid : Nat} {r₁ r₂ : String} :
    ∀ {n : Nat} {es : List SysEvent},
      (pid, r₁) ∈ allocMap n es → (pid, r₂) ∈ allocMap n es → r₁ = r₂ := by
  intro n es
  induction es generalizing n with
  | nil => intro h; simp [allocMap] at h
  | cons e es ih =>
    cases e with
    | runCall rid args =>
      intro h₁ h₂
      simp only [allocMap, List.mem_cons] at h₁ h₂
      rcases h₁ with h₁ | h₁ <;> rcases h₂ with h₂ | h₂
      · injection h₁ with h₁a h₁b
        injection h₂ with h₂a h₂b
        rw [h₁b, h₂b]
      · injection h₁ with h₁a h₁b
        have := allocMap_key_le h₂
        omega
      · injection h₂ with h₂a h₂b
        have := allocMap_key_le h₁
        omega
      · exact ih h₁ h₂
    | procFinished pid' b c st =>
      intro h₁ h₂
      exact ih h₁ h₂

/-- Every live connection came either from the starting state or from a
`runCall` event of the processed sequence, with the process id that
event was allocated. -/
theorem foldState_connections_subset :
    ∀ (es : List SysEvent) (s : SysState) (c : Nat × String),
      c ∈ (foldState s es).connections →
      c ∈ s.connections ∨ c ∈ allocMap s.nextPid es := by
  intro es
  induction es with
  | nil =>
    intro s c h
    exact Or.inl h
  | cons e es ih =>
    intro s c h
    rw [foldState, List.foldl_cons] at h
    have step := ih (stepState s e) c h
    cases e with
    | runCall rid args =>
      rcases step with h' | h'
      · simp only [stepState, List.mem_append, List.mem_singleton] at h'
        rcases h' with h'' | h''
        · exact Or.inl h''
        · right
          simp only [allocMap, List.mem_cons]
          exact Or.inl h''
      · right
        simp only [stepState] at h'
        simp only [allocMap, List.mem_cons]
        exact Or.inr h'
    | procFinished pid b cde st =>
      rcases step with h' | h'
      · simp only [stepState] at h'
        exact Or.inl (List.mem_of_mem_filter h')
      · simp only [stepState] at h'
        right
        simpa [allocMap] using h'

/-- Once the process object `pid` (already allocated: `pid < nextPid`)
has no connection left, no later event reconnects it: fresh ids only
grow, so `pid` is never reused. -/
theorem pid_stays_disconnected (pid : Nat) :
    ∀ (es : List SysEvent) (s : SysState),
      (∀ r, (pid, r) ∉ s.connections) → pid < s.nextPid →
      (∀ r, (pid, r) ∉ (foldState s es).connections)
        ∧ pid < (foldState s es).nextPid := by
  intro es
  induction es with
  | nil =>
    intro s hconn hlt
    exact ⟨hconn, hlt⟩
  | cons e es ih =>
    intro s hconn hlt
    rw [foldState, List.foldl_cons]
    cases e with
    | runCall rid args =>
      refine ih (stepState s (.runCall rid args)) ?_ ?_
      · intro r hr
        simp only [stepState, List.mem_append, List.mem_singleton] at hr
        rcases hr with hr | hr
        · exact hconn r hr
        · injection hr with hr1 hr2
          omega
      · simp only [stepState]
        omega
    | procFinished pid' b c st =>
      refine ih (stepState s (.procFinished pid' b c st)) ?_ ?_
      · intro r hr
        simp only [stepState] at hr
        exact hconn r (List.mem_of_mem_filter hr)
      · simpa [stepState] using hlt

/-! ## Claim theorems -/

/-- C1: for every call to `ProcessRunner::run(requestId, args)`, any
`finished` signal emitted for that call carries, as its first argument,
the exact request identifier string supplied by the caller, unchanged. -/
theorem run_finished_carries_requestId (requestId : String)
    (args : List String) (outcome : ProcOutcome) (sig : FinishedSignal)
    (h : sig ∈ ProcessRunner.emissions requestId args outcome) :
    sig.requestId = requestId := by
  cases outcome with
  | failedToStart =>
    simp [ProcessRunner.emissions, ProcessRunner.run, runSyncActions,
      QProcessFinishedEvents, Action.emittedSignal] at h
  | terminated out err code st =>
    simp [ProcessRunner.emissions, ProcessRunner.run, runSyncActions,
      QProcessFinishedEvents, callbackActions, Action.emittedSignal,
      ProcOutcome.stdoutBuffer] at h
    rw [h]
    rfl

/-- Witness for C1 at a concrete call. -/
theorem run_finished_carries_requestId_witness :
    FinishedSignal.requestId ⟨"id7", "", 0⟩ = "id7" :=
  run_finished_carries_requestId "id7" ["set", "wall.png"]
    (.terminated [] [] 0 .normalExit) ⟨"id7", "", 0⟩ (by decide)

/-- C2 counterexample: at a call whose child process fails to launch,
the `finished` signal is emitted zero times, not exactly once. -/
theorem run_failedToStart_no_emission_counterexample :
    ¬ (ProcessRunner.emissions "req-1" ["list"]
        ProcOutcome.failedToStart).length = 1 := by
  decide

/-- C2 (amended): for every call to `ProcessRunner::run(requestId,
args)`, the `finished` signal is emitted exactly once when the child
process launches (and terminates), and zero times when it fails to
launch; any emission happens asynchronously, after `run` has returned:
the synchronous actions of `run` contain no emission. -/
theorem run_emits_once_iff_launched (requestId : String)
    (args : List String) (outcome : ProcOutcome) :
    (ProcessRunner.emissions requestId args outcome).length
        = (if outcome.launched then 1 else 0)
      ∧ (runSyncActions requestId args).filterMap Action.emittedSignal
          = [] := by
  cases outcome <;>
    simp [ProcessRunner.emissions, ProcessRunner.run, runSyncActions,
      QProcessFinishedEvents, callbackActions, Action.emittedSignal,
      ProcOutcome.stdoutBuffer, ProcOutcome.launched]

/-- C4: every call to `ProcessRunner::run(requestId, args)` performs
exactly one launch, of the executable named "muralis", with exactly the
caller-supplied argument strings in the order given. -/
theorem run_launches_muralis_with_args (requestId : String)
    (args : List String) (outcome : ProcOutcome) :
    ProcessRunner.launches requestId args outcome = [("muralis", args)] := by
  cases outcome <;>
    simp [ProcessRunner.launches, ProcessRunner.run, runSyncActions,
      QProcessFinishedEvents, callbackActions, Action.startedLaunch,
      ProcOutcome.stdoutBuffer]

/-- C5: for every completed launch, the emitted signal's second
argument is the child's captured standard-output bytes decoded as
UTF-8 and its third argument is the process exit code; the buffered
standard-error bytes influence nothing. -/
theorem run_finished_reports_stdout_and_exitCode (requestId : String)
    (args : List String) (out err : List Nat) (code : Int)
    (st : ExitStatus) :
    ProcessRunner.emissions requestId args (.terminated out err code st)
        = [{ requestId := requestId
             stdoutData := QStringFromUtf8 out
             exitCode := code }]
      ∧ ∀ err₂, ProcessRunner.emissions requestId args
            (.terminated out err₂ code st)
          = ProcessRunner.emissions requestId args
            (.terminated out err code st) := by
  constructor
  · simp [ProcessRunner.emissions, ProcessRunner.run, runSyncActions,
      QProcessFinishedEvents, callbackActions, Action.emittedSignal,
      ProcOutcome.stdoutBuffer, callbackSignal]
  · intro err₂
    simp [ProcessRunner.emissions, ProcessRunner.run, runSyncActions,
      QProcessFinishedEvents, callbackActions, Action.emittedSignal,
      ProcOutcome.stdoutBuffer]

/-- C6: when the child process fails to launch, nothing is surfaced to
the caller: the whole observable behaviour of the call is the single
(failed) `start` of "muralis" — no retry, no signal of any kind — and
`run`, a total function here as in the source, returns normally. The
class declares no error signal at all (processrunner.h), so no error
emission is even expressible. -/
theorem run_launch_failure_not_surfaced (requestId : String)
    (args : List String) :
    ProcessRunner.run requestId args .failedToStart
        = [Action.startProcess "muralis" args]
      ∧ ProcessRunner.emissions requestId args .failedToStart = [] := by
  constructor
  · simp [ProcessRunner.run, runSyncActions, QProcessFinishedEvents]
  · simp [ProcessRunner.emissions, ProcessRunner.run, runSyncActions,
      QProcessFinishedEvents, Action.emittedSignal]

/-- C7: when the session JSON file cannot be opened, or opens but
cannot be parsed, `readJsonFile` returns an empty object and the
application proceeds with the default Dark theme; no failure is
reported (both functions are total). -/
theorem readJsonFile_failure_empty_and_dark (f : SessionFileAccess)
    (h : f = .openFailed ∨ f = .opened none) :
    readJsonFile f = ([] : QJsonObject) ∧ materialTheme f = "Dark" := by
  rcases h with h | h <;> subst h <;> exact ⟨rfl, rfl⟩

/-- Witness for C7 at a concrete unopenable file. -/
theorem readJsonFile_failure_empty_and_dark_witness :
    readJsonFile .openFailed = ([] : QJsonObject)
      ∧ materialTheme .openFailed = "Dark" :=
  readJsonFile_failure_empty_and_dark .openFailed (Or.inl rfl)

/-- C8: when loading the QML UI yields no root objects, `main` returns
`-1` — a nonzero status — and does so whatever `app.exec()` would have
returned: the event loop's result is irrelevant, i.e. it is never
entered. -/
theorem main_no_root_objects_nonzero_exit {α : Type}
    (rootObjects : List α) (appExec : Int) (h : rootObjects.isEmpty) :
    mainReturn rootObjects appExec = -1
      ∧ mainReturn rootObjects appExec ≠ 0 := by
  refine ⟨?_, ?_⟩ <;> simp [mainReturn, h]

/-- Witness for C8 at a concrete empty root-object list. -/
theorem main_no_root_objects_nonzero_exit_witness :
    mainReturn ([] : List Unit) 0 = -1
      ∧ mainReturn ([] : List Unit) 0 ≠ 0 :=
  main_no_root_objects_nonzero_exit ([] : List Unit) 0 (by decide)

/-- C9: the Light Material theme is selected if and only if the session
object's "isLightMode" value is the boolean `true`; an unopenable or
unparsable file, a missing key, and every non-boolean or false value
all yield the Dark theme. -/
theorem materialTheme_light_iff_isLightMode_true (f : SessionFileAccess) :
    materialTheme f = "Light"
      ↔ (readJsonFile f).value "isLightMode" = QJsonValue.bool true := by
  have key : ∀ v : QJsonValue,
      ((if !(v.toBool false) then "Dark" else "Light") = "Light"
        ↔ v = QJsonValue.bool true) := by
    intro v
    cases v with
    | bool b => cases b <;> simp [QJsonValue.toBool]
    | undefined => simp [QJsonValue.toBool]
    | null => simp [QJsonValue.toBool]
    | num n => simp [QJsonValue.toBool]
    | str s => simp [QJsonValue.toBool]
    | arr elems => simp [QJsonValue.toBool]
    | obj fields => simp [QJsonValue.toBool]
  exact key ((readJsonFile f).value "isLightMode")

/-- C3: a completion callback can never fire twice for the same
process object: once a `QProcess::finished` event for an
already-created process `pid` has been dispatched (its connection is
gone with the object's `deleteLater`), any later `finished` event for
`pid` emits nothing, whatever other calls and completions happen in
between. -/
theorem callback_never_fires_twice (n₀ : Nat) (es₁ es₂ : List SysEvent)
    (pid : Nat) (b₁ b₂ : List Nat) (c₁ c₂ : Int) (st₁ st₂ : ExitStatus)
    (h : pid < (foldState ⟨n₀, []⟩ es₁).nextPid) :
    stepEmits
      (foldState
        (stepState (foldState ⟨n₀, []⟩ es₁) (.procFinished pid b₁ c₁ st₁))
        es₂)
      (.procFinished pid b₂ c₂ st₂) = [] := by
  set s₁ := foldState ⟨n₀, []⟩ es₁ with hs₁
  have hstart : ∀ r, (pid, r) ∉
      (stepState s₁ (.procFinished pid b₁ c₁ st₁)).connections := by
    intro r hr
    simp only [stepState, List.mem_filter, decide_eq_true_eq] at hr
    exact hr.2 rfl
  have hlt : pid < (stepState s₁ (.procFinished pid b₁ c₁ st₁)).nextPid := h
  have inv := pid_stays_disconnected pid es₂
    (stepState s₁ (.procFinished pid b₁ c₁ st₁)) hstart hlt
  have hnil : (foldState (stepState s₁ (.procFinished pid b₁ c₁ st₁))
        es₂).connections.filter (fun c => c.1 = pid) = [] := by
    rw [List.filter_eq_nil_iff]
    intro c hc
    simp only [decide_eq_true_eq]
    intro hceq
    exact inv.1 c.2 (by rw [← hceq] at hc ⊢; exact hc)
  simp only [stepEmits, hnil, List.map_nil]

/-- Witness for C3 at a concrete history: one call, whose process
completes, then a second completion event for the same process. -/
theorem callback_never_fires_twice_witness :
    stepEmits
      (foldState
        (stepState (foldState ⟨0, []⟩ [SysEvent.runCall "a" []])
          (.procFinished 0 [] 0 .normalExit))
        [])
      (.procFinished 0 [] 1 .crashExit) = [] :=
  callback_never_fires_twice 0 [SysEvent.runCall "a" []] [] 0 [] [] 0 1
    .normalExit .crashExit (by decide)

/-- C10: overlapping invocations are isolated: each call connects its
own lambda to its own process object, so when the process allocated to
a given `run` call completes, every signal dispatched for that
completion carries that call's request identifier together with that
very process's buffered standard output and exit code — never another
invocation's. -/
theorem run_calls_isolated (n₀ : Nat) (es : List SysEvent) (pid : Nat)
    (requestId : String) (stdoutBytes : List Nat) (exitCode : Int)
    (st : ExitStatus) (halloc : (pid, requestId) ∈ allocMap n₀ es) :
    ∀ sig ∈ stepEmits (foldState ⟨n₀, []⟩ es)
        (.procFinished pid stdoutBytes exitCode st),
      sig = callbackSignal requestId stdoutBytes exitCode st := by
  intro sig hsig
  simp only [stepEmits, List.mem_map, List.mem_filter,
    decide_eq_true_eq] at hsig
  obtain ⟨c, ⟨hc_mem, hc_pid⟩, hc_sig⟩ := hsig
  have hsub := foldState_connections_subset es ⟨n₀, []⟩ c hc_mem
  rcases hsub with h' | h'
  · simp at h'
  · have : (pid, c.2) ∈ allocMap n₀ es := by
      rw [← hc_pid]
      exact h'
    have := allocMap_functional this halloc
    rw [← hc_sig, this]

/-- Witness for C10: two overlapping calls; the completion of the
second call's process carries the second call's request identifier. -/
theorem run_calls_isolated_witness :
    (⟨"b", "", 0⟩ : FinishedSignal)
      = callbackSignal "b" [] 0 ExitStatus.normalExit :=
  run_calls_isolated 0 [SysEvent.runCall "a" [], SysEvent.runCall "b" []]
    1 "b" [] 0 .normalExit (by decide) ⟨"b", "", 0⟩ (by decide)

end Muralis
